import Mathlib

/-!
Verification development for the legislative-train scraper
(`scraper.py` / `function_app.py`): a shallow embedding of the
identifier deriver, link discoverer, detail extractor, filename
sanitizer and the orchestrator loop, with theorems about the
properties the specification states.
-/

namespace LegTrain

/-! ### Identifier deriver: `generate_id` (scraper.py lines 69-71)

The source derives the id as the MD5 hexdigest of the UTF-8 encoded URL.
We embed UTF-8 encoding and the MD5 algorithm over `Nat` with explicit
mod 2^32 arithmetic. -/

/-- UTF-8 encoding of one character (code point to byte list). -/
def utf8Char (c : Char) : List Nat :=
  let n := c.toNat
  if n < 0x80 then [n]
  else if n < 0x800 then
    [0xC0 ||| (n >>> 6), 0x80 ||| (n &&& 0x3F)]
  else if n < 0x10000 then
    [0xE0 ||| (n >>> 12), 0x80 ||| ((n >>> 6) &&& 0x3F), 0x80 ||| (n &&& 0x3F)]
  else
    [0xF0 ||| (n >>> 18), 0x80 ||| ((n >>> 12) &&& 0x3F),
     0x80 ||| ((n >>> 6) &&& 0x3F), 0x80 ||| (n &&& 0x3F)]

/-- UTF-8 encoding of a string, as the encode call of the source. -/
def utf8 (s : String) : List Nat := s.toList.flatMap utf8Char

/-- The 64 MD5 sine-derived round constants. -/
def mdK : List Nat :=
  [0xd76aa478, 0xe8c7b756, 0x242070db, 0xc1bdceee,
   0xf57c0faf, 0x4787c62a, 0xa8304613, 0xfd469501,
   0x698098d8, 0x8b44f7af, 0xffff5bb1, 0x895cd7be,
   0x6b901122, 0xfd987193, 0xa679438e, 0x49b40821,
   0xf61e2562, 0xc040b340, 0x265e5a51, 0xe9b6c7aa,
   0xd62f105d, 0x02441453, 0xd8a1e681, 0xe7d3fbc8,
   0x21e1cde6, 0xc33707d6, 0xf4d50d87, 0x455a14ed,
   0xa9e3e905, 0xfcefa3f8, 0x676f02d9, 0x8d2a4c8a,
   0xfffa3942, 0x8771f681, 0x6d9d6122, 0xfde5380c,
   0xa4beea44, 0x4bdecfa9, 0xf6bb4b60, 0xbebfbc70,
   0x289b7ec6, 0xeaa127fa, 0xd4ef3085, 0x04881d05,
   0xd9d4d039, 0xe6db99e5, 0x1fa27cf8, 0xc4ac5665,
   0xf4292244, 0x432aff97, 0xab9423a7, 0xfc93a039,
   0x655b59c3, 0x8f0ccc92, 0xffeff47d, 0x85845dd1,
   0x6fa87e4f, 0xfe2ce6e0, 0xa3014314, 0x4e0811a1,
   0xf7537e82, 0xbd3af235, 0x2ad7d2bb, 0xeb86d391]

/-- The 64 MD5 per-round left-rotation amounts. -/
def mdS : List Nat :=
  [7, 12, 17, 22, 7, 12, 17, 22, 7, 12, 17, 22, 7, 12, 17, 22,
   5,  9, 14, 20, 5,  9, 14, 20, 5,  9, 14, 20, 5,  9, 14, 20,
   4, 11, 16, 23, 4, 11, 16, 23, 4, 11, 16, 23, 4, 11, 16, 23,
   6, 10, 15, 21, 6, 10, 15, 21, 6, 10, 15, 21, 6, 10, 15, 21]

/-- Left rotation of a 32-bit word. -/
def rotl32 (x n : Nat) : Nat := ((x <<< n) ||| (x >>> (32 - n))) % 4294967296

/-- MD5 padding: append 0x80, zero bytes to 56 mod 64, then the
bit length in 8 bytes little-endian. -/
def md5pad (msg : List Nat) : List Nat :=
  let len := msg.length
  let z := (64 + 56 - ((len + 1) % 64)) % 64
  let bitLen := (len * 8) % 18446744073709551616
  msg ++ [0x80] ++ List.replicate z 0 ++
    [bitLen % 256, bitLen >>> 8 % 256, bitLen >>> 16 % 256, bitLen >>> 24 % 256,
     bitLen >>> 32 % 256, bitLen >>> 40 % 256, bitLen >>> 48 % 256, bitLen >>> 56 % 256]

/-- Little-endian 32-bit word `j` of a 64-byte chunk. -/
def wordAt (chunk : List Nat) (j : Nat) : Nat :=
  chunk.getD (4 * j) 0 + 256 * chunk.getD (4 * j + 1) 0 +
    65536 * chunk.getD (4 * j + 2) 0 + 16777216 * chunk.getD (4 * j + 3) 0

/-- One MD5 round on the state (a, b, c, d), round index `i`. -/
def md5Round (m : Nat → Nat) (st : Nat × Nat × Nat × Nat) (i : Nat) :
    Nat × Nat × Nat × Nat :=
  let a := st.1; let b := st.2.1; let c := st.2.2.1; let d := st.2.2.2
  let fg : Nat × Nat :=
    if i < 16 then ((b &&& c) ||| ((b ^^^ 4294967295) &&& d), i)
    else if i < 32 then ((d &&& b) ||| ((d ^^^ 4294967295) &&& c), (5 * i + 1) % 16)
    else if i < 48 then (b ^^^ c ^^^ d, (3 * i + 5) % 16)
    else (c ^^^ (b ||| (d ^^^ 4294967295)), (7 * i) % 16)
  let f := (fg.1 + a + mdK.getD i 0 + m fg.2) % 4294967296
  (d, (b + rotl32 f (mdS.getD i 0)) % 4294967296, b, c)

/-- Process one 64-byte chunk, updating the four registers. -/
def md5Chunk (st : Nat × Nat × Nat × Nat) (chunk : List Nat) :
    Nat × Nat × Nat × Nat :=
  let r := (List.range 64).foldl (md5Round (wordAt chunk)) st
  ((st.1 + r.1) % 4294967296, (st.2.1 + r.2.1) % 4294967296,
   (st.2.2.1 + r.2.2.1) % 4294967296, (st.2.2.2 + r.2.2.2) % 4294967296)

/-- Serialize a 32-bit word to 4 bytes little-endian. -/
def toLE4 (w : Nat) : List Nat :=
  [w % 256, w / 256 % 256, w / 65536 % 256, w / 16777216 % 256]

/-- MD5 digest of a byte list: 16 bytes. -/
def md5bytes (msg : List Nat) : List Nat :=
  let padded := md5pad msg
  let blocks := (List.range (padded.length / 64)).map
    (fun i => (padded.drop (64 * i)).take 64)
  let r := blocks.foldl md5Chunk (0x67452301, 0xefcdab89, 0x98badcfe, 0x10325476)
  toLE4 r.1 ++ toLE4 r.2.1 ++ toLE4 r.2.2.1 ++ toLE4 r.2.2.2

/-- The sixteen lowercase hexadecimal digit characters. -/
def hexDigits : List Char := "0123456789abcdef".toList

/-- Hex digit character for a nibble. -/
def hexChar (n : Nat) : Char := hexDigits.getD n '0'

/-- Python `hexdigest()`: two lowercase hex characters per byte. -/
def hexdigest (bs : List Nat) : String :=
  String.mk (bs.flatMap (fun b => [hexChar (b / 16), hexChar (b % 16)]))

/-- The identifier deriver of scraper.py (also the doc_id computation
of function_app.py line 53): the MD5 hexdigest of the UTF-8 bytes of
the URL. -/
def generate_id (url : String) : String := hexdigest (md5bytes (utf8 url))

/-- The nibble sequence of the id of a URL: high then low nibble of each
digest byte. -/
def nibbles (u : String) : List Nat :=
  (md5bytes (utf8 u)).flatMap (fun b => [b / 16, b % 16])

/-- Numeric value of a lowercase hexadecimal digit character. -/
def hexVal (c : Char) : Fin 16 :=
  if c = '0' then 0 else if c = '1' then 1 else if c = '2' then 2
  else if c = '3' then 3 else if c = '4' then 4 else if c = '5' then 5
  else if c = '6' then 6 else if c = '7' then 7 else if c = '8' then 8
  else if c = '9' then 9 else if c = 'a' then 10 else if c = 'b' then 11
  else if c = 'c' then 12 else if c = 'd' then 13 else if c = 'e' then 14
  else 15

/-- A string of n letters a. -/
def repA (n : Nat) : String := String.mk (List.replicate n 'a')

/-- The nibble sequence of the id of `repA n`, read as a function on
32 positions (reduced mod 16, a no-op on actual nibbles). -/
def nibFin (n : Nat) (i : Fin 32) : Fin 16 :=
  ⟨(nibbles (repA n)).getD i 0 % 16, Nat.mod_lt _ (by norm_num)⟩

/-! ### Filename sanitizer (scraper.py line 134)

The source substitutes one underscore for each run of characters outside
the class [a-zA-Z0-9_-], truncates to 100 characters, and appends an
underscore, the first 6 characters of the id, and the extension txt. -/

/-- Membership in the character class `[a-zA-Z0-9_-]`. -/
def isSafe (c : Char) : Bool :=
  ('a' ≤ c && c ≤ 'z') || ('A' ≤ c && c ≤ 'Z') || ('0' ≤ c && c ≤ '9') ||
    c == '_' || c == '-'

/-- The regex substitution of scraper.py line 134: every maximal run of
characters outside the class becomes one underscore. -/
def sanitize : List Char → List Char
  | [] => []
  | c :: cs =>
    if isSafe c then c :: sanitize cs
    else '_' :: sanitize (cs.dropWhile (fun d => !isSafe d))
termination_by l => l.length
decreasing_by
  · simp
  · simp only [List.length_cons]
    refine Nat.lt_succ_of_le ?_
    induction cs with
    | nil => simp [List.dropWhile]
    | cons a t ih =>
      simp only [List.dropWhile]
      split
      · exact Nat.le_succ_of_le ih
      · exact Nat.le_refl _

/-- The blob filename of scraper.py line 134: sanitized title truncated
to 100 characters, underscore, first 6 characters of the id, `.txt`. -/
def safe_filename (title doc_id : String) : String :=
  String.mk ((sanitize title.toList).take 100) ++ "_" ++
    String.mk (doc_id.toList.take 6) ++ ".txt"

/-! ### Parsed documents

The HTML parse-and-query capability is an external collaborator; a parsed
document is modelled as its elements in document order.  `text` is the
element's visible text; the `.strip()` and `strip=True` of the source
become `String.trim`. -/

/-- One HTML element of a parsed document. -/
structure Element where
  tag : String
  classes : List String
  href : Option String
  text : String
deriving DecidableEq

/-- A parsed document: its elements in document order. -/
abbrev Doc := List Element

/-- Whether the second list starts with the first. -/
def startsWithL : List Char → List Char → Bool
  | [], _ => true
  | _ :: _, [] => false
  | a :: as, b :: bs => a == b && startsWithL as bs

/-- Whether the pattern occurs contiguously in the list. -/
def hasSubstrL (pat : List Char) : List Char → Bool
  | [] => startsWithL pat []
  | b :: bs => startsWithL pat (b :: bs) || hasSubstrL pat bs

/-- Python `pat in s` substring containment. -/
def containsStr (s pat : String) : Bool := hasSubstrL pat.toList s.toList

/-- The base origin of scraper.py line 25. -/
def BASE_URL : String := "https://www.europarl.europa.eu"

/-- The six hardcoded theme seed URLs (scraper.py lines 28-35). -/
def THEMES : List String :=
  ["https://www.europarl.europa.eu/legislative-train/theme-a-european-green-deal",
   "https://www.europarl.europa.eu/legislative-train/theme-a-europe-fit-for-the-digital-age",
   "https://www.europarl.europa.eu/legislative-train/theme-an-economy-that-works-for-people",
   "https://www.europarl.europa.eu/legislative-train/theme-a-stronger-europe-in-the-world",
   "https://www.europarl.europa.eu/legislative-train/theme-promoting-our-european-way-of-life",
   "https://www.europarl.europa.eu/legislative-train/theme-a-new-push-for-european-democracy"]

/-- Log lines emitted by the run, with the context the source embeds in
its messages. -/
inductive Log where
  | started
  | themeInfo (theme : String)
  | fetchWarn (url : String) (status : Nat)
  | fetchErr (url : String)
  | itemErr (url : String)
  | processed (title : String)
  | finished (total : Nat)
deriving DecidableEq

/-- Outcome of one HTTP GET: a transport-level exception, or a response
with a status code and (parsed) body. -/
inductive FetchResult where
  | failure
  | response (status : Nat) (body : Doc)
deriving DecidableEq

/-- The external world of one run: what each URL fetch returns, whether
each blob upload and each metadata upsert raises, the container URL the
blob client reports, and the clock. -/
structure Env where
  fetch : String → FetchResult
  blobOk : String → Bool
  upsertOk : String → Bool
  blobBaseUrl : String
  now : String

/-! ### Page fetcher: `get_soup` (scraper.py lines 43-54) -/

/-- Fetches a URL and returns the parsed document, with the log lines
emitted: `none` with a warning when the status is not 200, `none` with
an error when the request raises. -/
def get_soup (env : Env) (url : String) : Option Doc × List Log :=
  match env.fetch url with
  | .failure => (none, [Log.fetchErr url])
  | .response s body =>
    if s != 200 then (none, [Log.fetchWarn url s]) else (some body, [])

/-! ### Link discoverer: `get_files_from_theme` (scraper.py lines 56-67) -/

/-- The anchor selection of the loop body: `soup.select("a[href*='/file-']")`,
keep hrefs that are truthy and start with the prefix, prepend the base
origin, then `list(set(...))`. -/
def themeLinks (soup : Doc) : List String :=
  (((((soup.filter (fun e => e.tag == "a" &&
          (match e.href with
           | some h => containsStr h "/file-"
           | none => false))).filterMap
        (fun e => e.href)).filter
      (fun h => h != "" && startsWithL "/legislative-train/theme-".toList h.toList)).map
    (fun h => BASE_URL ++ h))).dedup

/-- Extracts individual file links from a theme page; a failed fetch
yields the empty list. -/
def get_files_from_theme (env : Env) (theme_url : String) :
    List String × List Log :=
  match get_soup env theme_url with
  | (none, lg) => ([], lg)
  | (some soup, lg) => (themeLinks soup, lg)

/-! ### Detail extractor (scraper.py lines 115-130) -/

/-- Title extraction: text of the first `h1`, stripped, default
`"Untitled"` (line 115-116). -/
def titleOf (soup : Doc) : String :=
  match soup.find? (fun e => e.tag == "h1") with
  | some e => e.text.trim
  | none => "Untitled"

/-- Cross-reference link: href of the first anchor (with an href) whose
href contains the OEIL domain, else `none` (lines 118-122). -/
def oeilOf (soup : Doc) : Option String :=
  ((soup.filter (fun e => e.tag == "a" && e.href.isSome)).find?
    (fun e => containsStr (e.href.getD "") "oeil.secure.europarl.europa.eu")).map
    (fun e => e.href.getD "")

/-- Status extraction: text of the first `div` with class `train-status`,
stripped, default `"Unknown"` (lines 124-125). -/
def statusOf (soup : Doc) : String :=
  match soup.find? (fun e => e.tag == "div" && e.classes.contains "train-status") with
  | some e => e.text.trim
  | none => "Unknown"

/-- The selector `"section, div.text-block, p"` (line 127). -/
def isContentBlock (e : Element) : Bool :=
  e.tag == "section" || (e.tag == "div" && e.classes.contains "text-block") ||
    e.tag == "p"

/-- The text body (lines 127-130): stripped text of each selected content
block whose stripped text is nonempty, joined with newlines. -/
def textContent (soup : Doc) : String :=
  String.intercalate "\n"
    (((soup.filter isContentBlock).filter
        (fun e => e.text.trim != "")).map (fun e => e.text.trim))

/-- The metadata record upserted to Cosmos DB (scraper.py lines 142-152). -/
structure ScrapedItem where
  id : String
  title : String
  original_url : String
  oeil_link : Option String
  status : String
  blob_storage_url : String
  blob_filename : String
  theme_source : String
  scraped_at : String
deriving DecidableEq

/-- Builds the metadata record for one detail page, as lines 115-152:
extracted fields, derived id and filename, and the blob URL the blob
client reports for that filename. -/
def metadataItem (env : Env) (theme file_url : String) (soup : Doc) : ScrapedItem :=
  let title := titleOf soup
  let doc_id := generate_id file_url
  let fname := safe_filename title doc_id
  { id := doc_id
    title := title
    original_url := file_url
    oeil_link := oeilOf soup
    status := statusOf soup
    blob_storage_url := env.blobBaseUrl ++ "/" ++ fname
    blob_filename := fname
    theme_source := theme
    scraped_at := env.now }

/-! ### Orchestrator and persistence (scraper.py lines 101-164) -/

/-- The observable state of one run: the blob container contents, the
metadata container contents, the log stream and the running counter. -/
structure RunState where
  blobs : List (String × String)
  meta : List ScrapedItem
  logs : List Log
  total_processed : Nat
deriving DecidableEq

/-- Blob upload with `overwrite=True`: replace any blob of the same name. -/
def upsertBlob (bs : List (String × String)) (n c : String) :
    List (String × String) :=
  (n, c) :: bs.filter (fun p => p.1 != n)

/-- Cosmos `upsert_item`: replace-if-exists, insert-if-absent, keyed by id. -/
def upsertMeta (ms : List ScrapedItem) (it : ScrapedItem) : List ScrapedItem :=
  it :: ms.filter (fun m => m.id != it.id)

/-- One iteration of the inner loop (lines 108-162): fetch the detail
page (skip on no document), extract, upload the text blob, upsert the
metadata record, count; any raise from a store write is caught, logged
with the URL, and the iteration ends. -/
def processItem (env : Env) (theme : String) (st : RunState) (file_url : String) :
    RunState :=
  match get_soup env file_url with
  | (none, lg) => { st with logs := st.logs ++ lg }
  | (some soup, lg) =>
    let item := metadataItem env theme file_url soup
    let text := textContent soup
    if env.blobOk item.blob_filename then
      let st1 := { st with
        blobs := upsertBlob st.blobs item.blob_filename text
        logs := st.logs ++ lg }
      if env.upsertOk item.id then
        { st1 with
          meta := upsertMeta st1.meta item
          total_processed := st1.total_processed + 1
          logs := st1.logs ++ [Log.processed item.title] }
      else { st1 with logs := st1.logs ++ [Log.itemErr file_url] }
    else { st with logs := st.logs ++ lg ++ [Log.itemErr file_url] }

/-- One iteration of the outer loop (lines 104-162): log the theme,
discover its file links, process each. -/
def processTheme (env : Env) (st : RunState) (theme : String) : RunState :=
  let res := get_files_from_theme env theme
  res.1.foldl (processItem env theme)
    { st with logs := st.logs ++ [Log.themeInfo theme] ++ res.2 }

/-- The whole run (lines 79-164, with the store clients constructed):
fold over the six themes from a zero counter, then emit the summary. -/
def legislative_scraper (env : Env) : RunState :=
  let final := THEMES.foldl (processTheme env)
    { blobs := [], meta := [], logs := [Log.started], total_processed := 0 }
  { final with logs := final.logs ++ [Log.finished final.total_processed] }

/-- Whether one item runs the full success path: page fetched, blob
upload succeeded, metadata upsert succeeded. -/
def itemSuccess (env : Env) (theme file_url : String) : Bool :=
  match get_soup env file_url with
  | (none, _) => false
  | (some soup, _) =>
    let item := metadataItem env theme file_url soup
    env.blobOk item.blob_filename && env.upsertOk item.id

/-- Number of fully successful items of one theme. -/
def themeCount (env : Env) (theme : String) : Nat :=
  ((get_files_from_theme env theme).1.filter (itemSuccess env theme)).length

/-! ### Concrete worlds used by the witnesses -/

/-- A world where every fetch raises. -/
def envFail : Env :=
  { fetch := fun _ => FetchResult.failure
    blobOk := fun _ => true
    upsertOk := fun _ => true
    blobBaseUrl := ""
    now := "" }

/-- A world where every fetch returns status 404. -/
def env404 : Env :=
  { fetch := fun _ => FetchResult.response 404 []
    blobOk := fun _ => true
    upsertOk := fun _ => true
    blobBaseUrl := ""
    now := "" }

/-- A world where fetches succeed with an empty page but every metadata
upsert raises. -/
def envNoUpsert : Env :=
  { fetch := fun _ => FetchResult.response 200 []
    blobOk := fun _ => true
    upsertOk := fun _ => false
    blobBaseUrl := "http://blob.example"
    now := "2026-01-01T00:00:00Z" }

/-- A world where everything succeeds (with an empty page body). -/
def envAllOk : Env :=
  { fetch := fun _ => FetchResult.response 200 []
    blobOk := fun _ => true
    upsertOk := fun _ => true
    blobBaseUrl := "http://blob.example"
    now := "2026-01-01T00:00:00Z" }

/-- The empty run state. -/
def st0 : RunState := { blobs := [], meta := [], logs := [], total_processed := 0 }

/-! ### Structure of the derived identifier -/

/-- Every byte of a serialized word is below 256. -/
theorem toLE4_lt (w : Nat) : ∀ b ∈ toLE4 w, b < 256 := by
  intro b hb
  simp only [toLE4, List.mem_cons, List.not_mem_nil, or_false] at hb
  rcases hb with rfl | rfl | rfl | rfl <;> omega

/-- Every byte of an MD5 digest is below 256. -/
theorem md5bytes_lt (m : List Nat) : ∀ b ∈ md5bytes m, b < 256 := by
  intro b hb
  simp only [md5bytes, List.mem_append] at hb
  rcases hb with ((hb | hb) | hb) | hb <;> exact toLE4_lt _ b hb

/-- An MD5 digest always has 16 bytes. -/
theorem md5bytes_length (m : List Nat) : (md5bytes m).length = 16 := by
  simp [md5bytes, toLE4]

/-- Mapping over the two-element blocks of a flatMap. -/
theorem flatMap_pair_map (g : Nat → Char) (f1 f2 : Nat → Nat) (bs : List Nat) :
    bs.flatMap (fun b => [g (f1 b), g (f2 b)]) =
      (bs.flatMap (fun b => [f1 b, f2 b])).map g := by
  induction bs with
  | nil => rfl
  | cons b t ih => simp [ih]

/-- The id is the nibble sequence rendered through `hexChar`. -/
theorem generate_id_eq_nibbles (u : String) :
    generate_id u = String.mk ((nibbles u).map hexChar) := by
  unfold generate_id hexdigest nibbles
  rw [flatMap_pair_map]

/-- Length of a flatMap of two-element blocks. -/
theorem flatMap_pair_length (f1 f2 : Nat → Nat) (bs : List Nat) :
    (bs.flatMap (fun b => [f1 b, f2 b])).length = 2 * bs.length := by
  induction bs with
  | nil => rfl
  | cons b t ih => simp [ih]; omega

/-- The nibble sequence has 32 entries. -/
theorem nibbles_length (u : String) : (nibbles u).length = 32 := by
  unfold nibbles
  rw [flatMap_pair_length, md5bytes_length]

/-- Every nibble is below 16. -/
theorem nibbles_lt (u : String) : ∀ d ∈ nibbles u, d < 16 := by
  intro d hd
  unfold nibbles at hd
  rw [List.mem_flatMap] at hd
  obtain ⟨b, hb, hd⟩ := hd
  have hb256 := md5bytes_lt _ b hb
  simp only [List.mem_cons, List.not_mem_nil, or_false] at hd
  rcases hd with rfl | rfl <;> omega

/-- A nibble renders to a lowercase hexadecimal digit. -/
theorem hexChar_mem (d : Nat) (h : d < 16) : hexChar d ∈ hexDigits := by
  interval_cases d <;> decide

/-- The id always has 32 characters. -/
theorem generate_id_length (u : String) : (generate_id u).length = 32 := by
  rw [generate_id_eq_nibbles, String.length_mk, List.length_map, nibbles_length]

/-- Every character of the id is a lowercase hexadecimal digit. -/
theorem generate_id_chars (u : String) :
    ∀ c ∈ (generate_id u).toList, c ∈ hexDigits := by
  intro c hc
  rw [generate_id_eq_nibbles] at hc
  have hl : (String.mk ((nibbles u).map hexChar)).toList = (nibbles u).map hexChar := rfl
  rw [hl, List.mem_map] at hc
  obtain ⟨d, hd, rfl⟩ := hc
  exact hexChar_mem d (nibbles_lt u d hd)

/-- On nibbles, `hexVal` inverts `hexChar`. -/
theorem hexVal_hexChar (d : Nat) (h : d < 16) : (hexVal (hexChar d) : Nat) = d := by
  interval_cases d <;> decide

/-- Hex rendering is injective on nibble sequences. -/
theorem map_hexChar_inj (l1 : List Nat) :
    ∀ l2 : List Nat, (∀ d ∈ l1, d < 16) → (∀ d ∈ l2, d < 16) →
      l1.map hexChar = l2.map hexChar → l1 = l2 := by
  induction l1 with
  | nil =>
    intro l2 _ _ h
    cases l2 with
    | nil => rfl
    | cons b t => simp at h
  | cons a t ih =>
    intro l2 h1 h2 h
    cases l2 with
    | nil => simp at h
    | cons b t2 =>
      simp only [List.map_cons, List.cons.injEq] at h
      have ha : a < 16 := h1 a (List.mem_cons_self a t)
      have hb : b < 16 := h2 b (List.mem_cons_self b t2)
      have hab : a = b := by
        have hc := hexVal_hexChar a ha
        rw [h.1, hexVal_hexChar b hb] at hc
        omega
      subst hab
      rw [ih t2 (fun d hd => h1 d (List.mem_cons_of_mem a hd))
        (fun d hd => h2 d (List.mem_cons_of_mem a hd)) h.2]

/-- Splitting into nibbles is injective on byte sequences. -/
theorem pair_flatMap_inj (l1 : List Nat) :
    ∀ l2 : List Nat, (∀ b ∈ l1, b < 256) → (∀ b ∈ l2, b < 256) →
      l1.flatMap (fun b => [b / 16, b % 16]) = l2.flatMap (fun b => [b / 16, b % 16]) →
      l1 = l2 := by
  induction l1 with
  | nil =>
    intro l2 _ _ h
    cases l2 with
    | nil => rfl
    | cons b t => simp [List.flatMap_cons] at h
  | cons a t ih =>
    intro l2 h1 h2 h
    cases l2 with
    | nil => simp [List.flatMap_cons] at h
    | cons b t2 =>
      simp only [List.flatMap_cons, List.cons_append, List.nil_append,
        List.cons.injEq] at h
      have ha : a < 256 := h1 a (List.mem_cons_self a t)
      have hb : b < 256 := h2 b (List.mem_cons_self b t2)
      have hab : a = b := by omega
      subst hab
      rw [ih t2 (fun d hd => h1 d (List.mem_cons_of_mem a hd))
        (fun d hd => h2 d (List.mem_cons_of_mem a hd)) h.2.2]

/-- Distinct digests give distinct ids. -/
theorem generate_id_ne_of_digest_ne (u1 u2 : String)
    (h : md5bytes (utf8 u1) ≠ md5bytes (utf8 u2)) :
    generate_id u1 ≠ generate_id u2 := by
  intro he
  apply h
  rw [generate_id_eq_nibbles, generate_id_eq_nibbles] at he
  have hn : (nibbles u1).map hexChar = (nibbles u2).map hexChar :=
    congrArg String.data he
  have hnib := map_hexChar_inj _ _ (nibbles_lt u1) (nibbles_lt u2) hn
  unfold nibbles at hnib
  exact pair_flatMap_inj _ _ (md5bytes_lt _) (md5bytes_lt _) hnib

set_option maxRecDepth 10000 in
/-- The six seed URLs derive pairwise distinct ids. -/
theorem themes_ids_distinct : (THEMES.map generate_id).Pairwise (· ≠ ·) := by
  decide

/-! ### Properties of the sanitizer and the link filter -/

/-- Every character of a sanitized title lies in `[a-zA-Z0-9_-]`. -/
theorem sanitize_safe (l : List Char) : ∀ c ∈ sanitize l, isSafe c = true := by
  induction l using sanitize.induct with
  | case1 => simp [sanitize]
  | case2 c cs h ih =>
    intro x hx
    rw [sanitize] at hx
    simp only [h, if_true] at hx
    rcases List.mem_cons.mp hx with rfl | hx
    · exact h
    · exact ih x hx
  | case3 c cs h ih =>
    intro x hx
    rw [sanitize] at hx
    simp only [h, if_false] at hx
    rcases List.mem_cons.mp hx with rfl | hx
    · decide
    · exact ih x hx

/-- A nonempty pattern never starts the empty list. -/
theorem startsWithL_ne_nil (c : Char) (cs l : List Char)
    (h : startsWithL (c :: cs) l = true) : l ≠ [] := by
  intro hl
  subst hl
  simp [startsWithL] at h

/-- For strings, an empty `toList` means the empty string. -/
theorem toList_eq_nil (h : String.toList s = []) : s = "" := by
  apply String.ext
  exact h

/-! ### Counting successful items -/

/-- The counter after one item: plus one exactly on the full success path. -/
theorem processItem_total (env : Env) (theme : String) (st : RunState) (u : String) :
    (processItem env theme st u).total_processed =
      st.total_processed + (if itemSuccess env theme u then 1 else 0) := by
  rcases h : get_soup env u with ⟨o, lg⟩
  rcases o with _ | soup
  · simp [processItem, itemSuccess, h]
  · by_cases hb : env.blobOk (metadataItem env theme u soup).blob_filename
    · by_cases hu : env.upsertOk (metadataItem env theme u soup).id
      · simp [processItem, itemSuccess, h, hb, hu]
      · simp [processItem, itemSuccess, h, hb, hu]
    · simp [processItem, itemSuccess, h, hb]

/-- The counter after a list of items: plus the number of successes. -/
theorem foldl_items_total (env : Env) (theme : String) (urls : List String) :
    ∀ st : RunState,
      (urls.foldl (processItem env theme) st).total_processed =
        st.total_processed + (urls.filter (itemSuccess env theme)).length := by
  induction urls with
  | nil => intro st; simp
  | cons u rest ih =>
    intro st
    simp only [List.foldl_cons, List.filter_cons]
    rw [ih, processItem_total]
    by_cases h : itemSuccess env theme u
    · simp [h]
      omega
    · simp [h]

/-- The counter after one theme: plus that theme's success count. -/
theorem processTheme_total (env : Env) (st : RunState) (theme : String) :
    (processTheme env st theme).total_processed =
      st.total_processed + themeCount env theme := by
  unfold processTheme themeCount
  rw [foldl_items_total]

/-- The counter after a list of themes: plus each theme's success count. -/
theorem foldl_themes_total (env : Env) (ts : List String) :
    ∀ st : RunState,
      (ts.foldl (processTheme env) st).total_processed =
        st.total_processed + (ts.map (themeCount env)).sum := by
  induction ts with
  | nil => intro st; simp
  | cons t rest ih =>
    intro st
    simp only [List.foldl_cons, List.map_cons, List.sum_cons]
    rw [ih, processTheme_total]
    omega

/-- The final counter of a run is the total number of successful items. -/
theorem scraper_total (env : Env) :
    (legislative_scraper env).total_processed = (THEMES.map (themeCount env)).sum := by
  unfold legislative_scraper
  rw [foldl_themes_total]
  simp

/-! ### The claims -/

/-- C7: for every URL, the page fetcher returns no document, with a
warning or error log line and without raising, whenever the response
status is not 200 or the request fails at transport level; only a 200
response is parsed into a document and returned. -/
theorem C7_page_fetcher (env : Env) (url : String) :
    (env.fetch url = FetchResult.failure →
      get_soup env url = (none, [Log.fetchErr url])) ∧
    (∀ (s : Nat) (body : Doc), env.fetch url = FetchResult.response s body →
      s ≠ 200 → get_soup env url = (none, [Log.fetchWarn url s])) ∧
    (∀ (s : Nat) (body : Doc), env.fetch url = FetchResult.response s body →
      s = 200 → get_soup env url = (some body, [])) ∧
    (∀ (d : Doc) (lg : List Log), get_soup env url = (some d, lg) →
      env.fetch url = FetchResult.response 200 d ∧ lg = []) := by
  refine ⟨?_, ?_, ?_, ?_⟩
  · intro h
    simp [get_soup, h]
  · intro s body h hs
    have hb : (s != 200) = true := bne_iff_ne.mpr hs
    simp [get_soup, h, hb]
  · intro s body h hs
    subst hs
    simp [get_soup, h]
  · intro d lg h
    rcases hf : env.fetch url with _ | ⟨s, body⟩
    · simp [get_soup, hf] at h
    · by_cases hs : s = 200
      · subst hs
        simp only [get_soup, hf, bne_self_eq_false, Bool.false_eq_true,
          if_false, Prod.mk.injEq, Option.some.injEq] at h
        exact ⟨by rw [h.1], h.2.symm⟩
      · have hb : (s != 200) = true := bne_iff_ne.mpr hs
        simp [get_soup, hf, hb] at h

/-- C7 witness: in the all-404 world the fetcher yields no document and
a warning log. -/
theorem C7_witness : get_soup env404 "u" = (none, [Log.fetchWarn "u" 404]) :=
  (C7_page_fetcher env404 "u").2.1 404 [] rfl (by decide)

/-- C4: the link discoverer returns exactly the hrefs of anchors that
contain the substring `/file-` and start with the theme path prefix,
each prefixed with the base origin, without duplicates; a failed fetch
yields the empty collection. -/
theorem C4_link_discoverer (env : Env) (theme_url u : String) (soup : Doc) :
    (u ∈ themeLinks soup ↔ ∃ h : String,
        (∃ e ∈ soup, e.tag = "a" ∧ e.href = some h) ∧
        containsStr h "/file-" = true ∧
        startsWithL "/legislative-train/theme-".toList h.toList = true ∧
        u = BASE_URL ++ h) ∧
    (themeLinks soup).Nodup ∧
    (∀ lg : List Log, get_soup env theme_url = (none, lg) →
      get_files_from_theme env theme_url = ([], lg)) ∧
    (∀ lg : List Log, get_soup env theme_url = (some soup, lg) →
      get_files_from_theme env theme_url = (themeLinks soup, lg)) := by
  refine ⟨?_, List.nodup_dedup _, ?_, ?_⟩
  · unfold themeLinks
    simp only [List.mem_dedup, List.mem_map, List.mem_filter, List.mem_filterMap]
    constructor
    · rintro ⟨h, ⟨⟨e, ⟨hes, hpred⟩, hhref⟩, hcond⟩, rfl⟩
      rw [Bool.and_eq_true] at hcond
      simp only [hhref] at hpred
      rw [Bool.and_eq_true, beq_iff_eq] at hpred
      exact ⟨h, ⟨e, hes, hpred.1, hhref⟩, hpred.2, hcond.2, rfl⟩
    · rintro ⟨h, ⟨e, hes, htag, hhref⟩, hcont, hstart, rfl⟩
      have hne : (h != "") = true := by
        rw [bne_iff_ne]
        intro heq
        subst heq
        exact absurd hstart (by decide)
      refine ⟨h, ⟨⟨e, ⟨hes, ?_⟩, hhref⟩, ?_⟩, rfl⟩
      · simp only [hhref]
        rw [Bool.and_eq_true, beq_iff_eq]
        exact ⟨htag, hcont⟩
      · rw [Bool.and_eq_true]
        exact ⟨hne, hstart⟩
  · intro lg hlg
    simp only [get_files_from_theme, hlg]
  · intro lg hlg
    simp only [get_files_from_theme, hlg]

/-- C4 witness: in the all-failing world the discoverer returns the
empty collection together with the error log of the fetcher. -/
theorem C4_witness : get_files_from_theme envFail "t" = ([], [Log.fetchErr "t"]) :=
  (C4_link_discoverer envFail "t" "x" []).2.2.1 [Log.fetchErr "t"] rfl

/-- C6: each extracted field is a function of the document alone and
defaults independently when its structural anchor is absent: no h1
yields title Untitled, no status element yields status Unknown, no
OEIL anchor yields no cross-reference link. -/
theorem C6_field_defaults (env : Env) (theme file_url : String) (soup : Doc) :
    (metadataItem env theme file_url soup).title = titleOf soup ∧
    (metadataItem env theme file_url soup).status = statusOf soup ∧
    (metadataItem env theme file_url soup).oeil_link = oeilOf soup ∧
    ((∀ e ∈ soup, e.tag ≠ "h1") → titleOf soup = "Untitled") ∧
    ((∀ e ∈ soup, ¬(e.tag = "div" ∧ "train-status" ∈ e.classes)) →
      statusOf soup = "Unknown") ∧
    ((∀ e ∈ soup, e.tag = "a" → ∀ h : String, e.href = some h →
        containsStr h "oeil.secure.europarl.europa.eu" = false) →
      oeilOf soup = none) := by
  refine ⟨rfl, rfl, rfl, ?_, ?_, ?_⟩
  · intro hno
    unfold titleOf
    have hfind : soup.find? (fun e => e.tag == "h1") = none :=
      List.find?_eq_none.mpr (fun x hx => by
        simp only [beq_iff_eq]
        exact hno x hx)
    rw [hfind]
  · intro hno
    unfold statusOf
    have hfind : soup.find?
        (fun e => e.tag == "div" && e.classes.contains "train-status") = none :=
      List.find?_eq_none.mpr (fun x hx => by
        simp only [Bool.and_eq_true, beq_iff_eq, List.elem_iff, not_and]
        intro htag hmem
        exact hno x hx ⟨htag, hmem⟩)
    rw [hfind]
  · intro hno
    unfold oeilOf
    have hfind : (soup.filter (fun e => e.tag == "a" && e.href.isSome)).find?
        (fun e => containsStr (e.href.getD "") "oeil.secure.europarl.europa.eu")
          = none :=
      List.find?_eq_none.mpr (fun x hx => by
        rw [List.mem_filter, Bool.and_eq_true, beq_iff_eq] at hx
        obtain ⟨hxs, htag, hsome⟩ := hx
        obtain ⟨h, hh⟩ := Option.isSome_iff_exists.mp hsome
        rw [hh]
        simp only [Option.getD_some]
        rw [hno x hxs htag h hh]
        simp)
    rw [hfind]
    rfl

/-- C6 witness: the empty document yields all three defaults. -/
theorem C6_witness :
    titleOf [] = "Untitled" ∧ statusOf [] = "Unknown" ∧ oeilOf [] = none :=
  ⟨(C6_field_defaults envFail "t" "u" []).2.2.2.1 (by simp),
   (C6_field_defaults envFail "t" "u" []).2.2.2.2.1 (by simp),
   (C6_field_defaults envFail "t" "u" []).2.2.2.2.2 (by simp)⟩

/-- C8: the text body is the newline-join, in document order, of the
trimmed visible text of every section, designated-class div and
paragraph element, skipping blocks whose trimmed text is empty. -/
theorem C8_text_body (soup : Doc) :
    textContent soup = String.intercalate "\n"
      (((soup.filter isContentBlock).map (fun e => e.text.trim)).filter
        (fun t => t != "")) ∧
    (∀ e : Element, isContentBlock e = true ↔
      (e.tag = "section" ∨ (e.tag = "div" ∧ "text-block" ∈ e.classes) ∨
        e.tag = "p")) ∧
    (soup.filter isContentBlock).Sublist soup := by
  refine ⟨?_, ?_, List.filter_sublist soup⟩
  · unfold textContent
    rw [List.filter_map]
    rfl
  · intro e
    unfold isContentBlock
    simp only [Bool.or_eq_true, Bool.and_eq_true, beq_iff_eq, List.elem_iff]
    tauto

/-- C5: the blob filename is the sanitized title truncated to at most
100 characters, then an underscore, the first 6 hex characters of the
id, and `.txt`; the part before the suffix has only characters from
`[A-Za-z0-9_-]`. -/
theorem C5_filename_sanitization (title url : String) :
    safe_filename title (generate_id url) =
      String.mk ((sanitize title.toList).take 100) ++ "_" ++
        String.mk ((generate_id url).toList.take 6) ++ ".txt" ∧
    ((sanitize title.toList).take 100).length ≤ 100 ∧
    (∀ c ∈ (sanitize title.toList).take 100, isSafe c = true) ∧
    (∀ c ∈ (generate_id url).toList.take 6, c ∈ hexDigits) := by
  refine ⟨rfl, ?_, ?_, ?_⟩
  · rw [List.length_take]
    exact inf_le_left
  · intro c hc
    exact sanitize_safe _ c (List.mem_of_mem_take hc)
  · intro c hc
    exact generate_id_chars url c (List.mem_of_mem_take hc)

set_option maxRecDepth 4000 in
/-- C5 witness: a character of the 6-character hash suffix of a concrete
id is a hex digit. -/
theorem C5_witness : 'b' ∈ hexDigits :=
  (C5_filename_sanitization "a b" "u").2.2.2 'b' (by decide)

/-- C1 counterexample: the ids of distinct URLs do not always differ;
the deriver maps infinitely many strings into the finite set of
32-character hex strings, so it cannot be injective. -/
theorem C1_counterexample :
    ¬ ∀ u1 u2 : String, u1 ≠ u2 → generate_id u1 ≠ generate_id u2 := by
  intro hinj
  have hcollapse : ∀ u1 u2 : String, generate_id u1 = generate_id u2 → u1 = u2 := by
    intro u1 u2 h
    by_contra hne
    exact hinj u1 u2 hne h
  have hg : Function.Injective nibFin := by
    intro n m h
    have hln : (nibbles (repA n)).length = 32 := nibbles_length _
    have hlm : (nibbles (repA m)).length = 32 := nibbles_length _
    have hnib : nibbles (repA n) = nibbles (repA m) := by
      apply List.ext_getElem (by rw [hln, hlm])
      intro i h1 h2
      have hlt : i < 32 := by rw [hln] at h1; exact h1
      have h16n : (nibbles (repA n)).getD i 0 < 16 := by
        rw [List.getD_eq_getElem _ _ h1]
        exact nibbles_lt _ _ (List.getElem_mem h1)
      have h16m : (nibbles (repA m)).getD i 0 < 16 := by
        rw [List.getD_eq_getElem _ _ h2]
        exact nibbles_lt _ _ (List.getElem_mem h2)
      have hv : (nibbles (repA n)).getD i 0 % 16 = (nibbles (repA m)).getD i 0 % 16 :=
        congrArg Fin.val (congrFun h ⟨i, hlt⟩)
      rw [Nat.mod_eq_of_lt h16n, Nat.mod_eq_of_lt h16m,
        List.getD_eq_getElem _ _ h1, List.getD_eq_getElem _ _ h2] at hv
      exact hv
    have hid : generate_id (repA n) = generate_id (repA m) := by
      rw [generate_id_eq_nibbles, generate_id_eq_nibbles, hnib]
    have hrep : repA n = repA m := hcollapse _ _ hid
    have hlen := congrArg String.length hrep
    simpa [repA, String.length_mk] using hlen
  haveI : Finite Nat := Finite.of_injective nibFin hg
  exact not_finite Nat

/-- C1 (amended): the id derives from the URL alone through a fixed
function, is always a 32-character lowercase hex string, two URLs get
distinct ids whenever their 128-bit digests differ (in particular the
six seed URLs get pairwise distinct ids); unconditional distinctness
for all distinct URLs cannot hold. -/
theorem C1_identifier_deriver (u u1 u2 : String) :
    generate_id u = hexdigest (md5bytes (utf8 u)) ∧
    (generate_id u).length = 32 ∧
    (∀ c ∈ (generate_id u).toList, c ∈ hexDigits) ∧
    (md5bytes (utf8 u1) ≠ md5bytes (utf8 u2) → generate_id u1 ≠ generate_id u2) ∧
    (THEMES.map generate_id).Pairwise (· ≠ ·) :=
  ⟨rfl, generate_id_length u, generate_id_chars u,
   generate_id_ne_of_digest_ne u1 u2, themes_ids_distinct⟩

/-- C1 witness: two concrete URLs with distinct digests get distinct ids. -/
theorem C1_witness : generate_id "a" ≠ generate_id "b" :=
  (C1_identifier_deriver "a" "a" "b").2.2.2.1 (by decide)

/-- C2: the blob write precedes the metadata upsert and the pair is not
transactional: when the blob write succeeds and the upsert raises, the
state keeps the written blob, the metadata is unchanged, the error is
logged and the loop moves to the next item; when the blob write raises,
neither store changes. -/
theorem C2_persistence_reconciler (env : Env) (theme : String) (st : RunState)
    (file_url : String) (soup : Doc) (lg : List Log)
    (hfetch : get_soup env file_url = (some soup, lg)) :
    (env.blobOk (metadataItem env theme file_url soup).blob_filename = true →
      env.upsertOk (metadataItem env theme file_url soup).id = false →
      processItem env theme st file_url = { st with
        blobs := upsertBlob st.blobs
          (metadataItem env theme file_url soup).blob_filename (textContent soup)
        logs := st.logs ++ lg ++ [Log.itemErr file_url] }) ∧
    (env.blobOk (metadataItem env theme file_url soup).blob_filename = false →
      processItem env theme st file_url =
        { st with logs := st.logs ++ lg ++ [Log.itemErr file_url] }) ∧
    (∀ rest : List String,
      (file_url :: rest).foldl (processItem env theme) st =
        rest.foldl (processItem env theme) (processItem env theme st file_url)) := by
  refine ⟨?_, ?_, fun rest => List.foldl_cons ..⟩
  · intro hb hu
    simp [processItem, hfetch, hb, hu, List.append_assoc]
  · intro hb
    simp [processItem, hfetch, hb, List.append_assoc]

/-- C2 witness: in the no-upsert world, one item leaves the blob
written, no metadata, and an error log. -/
theorem C2_witness :
    processItem envNoUpsert "t" st0 "u" =
      { blobs := [(safe_filename "Untitled" (generate_id "u"), "")]
        meta := []
        logs := [Log.itemErr "u"]
        total_processed := 0 } := by
  have h := (C2_persistence_reconciler envNoUpsert "t" st0 "u" [] []
    (by decide)).1 rfl rfl
  rw [h]
  rfl

/-- C3: no exception escapes an item or theme iteration: the run
aggregates every theme's successes whatever the world does; a failing
theme fetch only appends its log lines and the run continues; a failing
item leaves the metadata and the counter unchanged and appends a log
line carrying the URL. -/
theorem C3_fault_isolation (env : Env) :
    ((legislative_scraper env).total_processed =
      (THEMES.map (themeCount env)).sum) ∧
    (∀ (theme : String) (urls : List String) (st : RunState),
      (urls.foldl (processItem env theme) st).total_processed =
        st.total_processed + (urls.filter (itemSuccess env theme)).length) ∧
    (∀ (st : RunState) (theme : String), env.fetch theme = FetchResult.failure →
      processTheme env st theme =
        { st with logs := st.logs ++ [Log.themeInfo theme, Log.fetchErr theme] }) ∧
    (∀ (theme : String) (st : RunState) (u : String) (soup : Doc) (lg : List Log),
      get_soup env u = (some soup, lg) → itemSuccess env theme u = false →
        (processItem env theme st u).meta = st.meta ∧
        (processItem env theme st u).total_processed = st.total_processed ∧
        (processItem env theme st u).logs = st.logs ++ lg ++ [Log.itemErr u]) ∧
    (∀ (theme : String) (st : RunState) (u : String) (lg : List Log),
      get_soup env u = (none, lg) →
        processItem env theme st u = { st with logs := st.logs ++ lg }) := by
  refine ⟨scraper_total env, fun theme urls st => foldl_items_total env theme urls st,
    ?_, ?_, ?_⟩
  · intro st theme hfail
    simp [processTheme, get_files_from_theme, get_soup, hfail]
  · intro theme st u soup lg hs hf
    have hsf : (env.blobOk (metadataItem env theme u soup).blob_filename &&
        env.upsertOk (metadataItem env theme u soup).id) = false := by
      simpa [itemSuccess, hs] using hf
    by_cases hb : env.blobOk (metadataItem env theme u soup).blob_filename
    · have hu : env.upsertOk (metadataItem env theme u soup).id = false := by
        simpa [hb] using hsf
      refine ⟨?_, ?_, ?_⟩ <;> simp [processItem, hs, hb, hu, List.append_assoc]
    · have hb0 : env.blobOk (metadataItem env theme u soup).blob_filename = false := by
        simpa using hb
      refine ⟨?_, ?_, ?_⟩ <;> simp [processItem, hs, hb0, List.append_assoc]
  · intro theme st u lg hs
    simp [processItem, hs]

/-- C3 witness: in the all-failing world a theme iteration only appends
its two log lines. -/
theorem C3_witness :
    processTheme envFail st0 "t" =
      { blobs := [], meta := [],
        logs := [Log.themeInfo "t", Log.fetchErr "t"], total_processed := 0 } := by
  have h := (C3_fault_isolation envFail).2.2.1 st0 "t" rfl
  rw [h]
  rfl

/-- C9: the counter starts at zero, is incremented exactly once per item
and only on the full success path, and the value emitted in the final
log line equals the number of items whose persistence succeeded. -/
theorem C9_run_summary (env : Env) :
    (legislative_scraper env).total_processed =
      (THEMES.map (themeCount env)).sum ∧
    (∀ (theme : String) (st : RunState) (u : String),
      (processItem env theme st u).total_processed =
        st.total_processed + (if itemSuccess env theme u then 1 else 0)) ∧
    (legislative_scraper env).logs.getLast? =
      some (Log.finished ((THEMES.map (themeCount env)).sum)) := by
  refine ⟨scraper_total env,
    fun theme st u => processItem_total env theme st u, ?_⟩
  unfold legislative_scraper
  rw [List.getLast?_concat, foldl_themes_total]
  simp

/-- C10: the record upserted by a successful iteration is internally
consistent with that iteration's blob write: `blob_filename` is the
uploaded name, `blob_storage_url` is that blob's URL, and `id` is the
id derived from `original_url`. -/
theorem C10_record_consistency (env : Env) (theme : String) (st : RunState)
    (file_url : String) (soup : Doc) (lg : List Log)
    (hfetch : get_soup env file_url = (some soup, lg))
    (hblob : env.blobOk (metadataItem env theme file_url soup).blob_filename = true)
    (hups : env.upsertOk (metadataItem env theme file_url soup).id = true) :
    processItem env theme st file_url = { st with
      blobs := upsertBlob st.blobs
        (metadataItem env theme file_url soup).blob_filename (textContent soup)
      meta := upsertMeta st.meta (metadataItem env theme file_url soup)
      total_processed := st.total_processed + 1
      logs := st.logs ++ lg ++
        [Log.processed (metadataItem env theme file_url soup).title] } ∧
    (metadataItem env theme file_url soup).id =
      generate_id (metadataItem env theme file_url soup).original_url ∧
    (metadataItem env theme file_url soup).blob_storage_url =
      env.blobBaseUrl ++ "/" ++ (metadataItem env theme file_url soup).blob_filename ∧
    (metadataItem env theme file_url soup).blob_filename =
      safe_filename (metadataItem env theme file_url soup).title
        (metadataItem env theme file_url soup).id ∧
    ((metadataItem env theme file_url soup).blob_filename, textContent soup) ∈
      (processItem env theme st file_url).blobs ∧
    (metadataItem env theme file_url soup) ∈ (processItem env theme st file_url).meta := by
  have hstep : processItem env theme st file_url = { st with
      blobs := upsertBlob st.blobs
        (metadataItem env theme file_url soup).blob_filename (textContent soup)
      meta := upsertMeta st.meta (metadataItem env theme file_url soup)
      total_processed := st.total_processed + 1
      logs := st.logs ++ lg ++
        [Log.processed (metadataItem env theme file_url soup).title] } := by
    simp [processItem, hfetch, hblob, hups, List.append_assoc, upsertMeta]
  refine ⟨hstep, rfl, rfl, rfl, ?_, ?_⟩
  · rw [hstep]
    exact List.mem_cons_self _ _
  · rw [hstep]
    exact List.mem_cons_self _ _

/-- C10 witness: in the all-success world the upserted record is in the
metadata store after the iteration. -/
theorem C10_witness :
    metadataItem envAllOk "t" "u" [] ∈ (processItem envAllOk "t" st0 "u").meta :=
  (C10_record_consistency envAllOk "t" st0 "u" [] [] (by decide) rfl rfl).2.2.2.2.2

end LegTrain
